import Mathlib

/-!
Verification of the live-subtitle transcription pipeline (`src/main.cpp`).

Strings are modelled as lists of byte values (`List Nat`), matching the
byte-oriented `std::string` processing of the source.  Floating-point
energies and gates are modelled as exact rationals (`ℚ`); the decimal
constants of the source are carried over literally.
-/

set_option maxRecDepth 10000

abbrev Str := List Nat

/-- `std::isspace` on an unsigned char in the C locale (ASCII). -/
def c_isspace (b : Nat) : Bool := b == 32 || (9 ≤ b && b ≤ 13)

/-- `std::ispunct` on an unsigned char in the C locale (ASCII). -/
def c_ispunct (b : Nat) : Bool :=
  (33 ≤ b && b ≤ 47) || (58 ≤ b && b ≤ 64) || (91 ≤ b && b ≤ 96) || (123 ≤ b && b ≤ 126)

/-- `std::tolower` on an unsigned char in the C locale (ASCII letters only). -/
def c_tolower (b : Nat) : Nat := if 65 ≤ b && b ≤ 90 then b + 32 else b

/-- `normalize_for_dedup`: drop whitespace and punctuation, lowercase ASCII,
leave non-ASCII bytes untouched. -/
def normalize_for_dedup (text : Str) : Str :=
  text.filterMap fun b =>
    if c_isspace b || c_ispunct b then none
    else if b < 0x80 then some (c_tolower b) else some b

/-- `normalize_repeat_token`: strip leading and trailing punctuation,
then lowercase ASCII bytes. -/
def normalize_repeat_token (token : Str) : Str :=
  let stripped := ((token.dropWhile c_ispunct).reverse.dropWhile c_ispunct).reverse
  stripped.map fun b => if b < 0x80 then c_tolower b else b

/-- Flush the current raw token accumulated by `split_repetition_tokens`:
normalize it and keep it only if non-empty. -/
def flush_token (current : Str) : List Str :=
  if current = [] then []
  else
    let token := normalize_repeat_token current
    if token = [] then [] else [token]

/-- Worker for `split_repetition_tokens`: whitespace-split with
per-token normalization. -/
def split_tokens_go (current : Str) : Str → List Str
  | [] => flush_token current
  | c :: rest =>
    if c_isspace c then flush_token current ++ split_tokens_go [] rest
    else split_tokens_go (current ++ [c]) rest

/-- `split_repetition_tokens`: punctuation-trimmed, lowercased,
whitespace-split tokens of a text. -/
def split_repetition_tokens (text : Str) : List Str := split_tokens_go [] text

/-- Number of occurrences of a token in a token list. -/
def token_count (tokens : List Str) (t : Str) : Nat := (tokens.filter (· = t)).length

/-- The count of the most frequent token (`max_count` in
`should_drop_repetitive_text`). -/
def max_token_count (tokens : List Str) : Nat :=
  (tokens.map (token_count tokens)).foldr max 0

/-- The longest run of identical consecutive tokens (`max_run`), tracked
exactly as in the source loop. -/
def max_run_from (prev : Str) (run maxRun : Nat) : List Str → Nat
  | [] => maxRun
  | t :: rest =>
    if t = prev then max_run_from t (run + 1) (max maxRun (run + 1)) rest
    else max_run_from t 1 maxRun rest

/-- `max_run` of `should_drop_repetitive_text` (1 on an empty or singleton list). -/
def max_consecutive_run : List Str → Nat
  | [] => 1
  | t :: rest => max_run_from t 1 1 rest

/-- All elements of a token list are the same token
(`unordered_set` of the tokens has size 1, given the list is non-empty). -/
def all_same_token : List Str → Bool
  | [] => true
  | t :: rest => rest.all (fun u => u = t)

/-- Modelled from the spec: `trim` (defined in the whisper.cpp common
helpers, outside this repository's sources) removes leading and trailing
whitespace; §3 calls the candidate "the trimmed recognizer output" and
§4.4 speaks of "the trimmed remainder". -/
def trim (s : Str) : Str :=
  ((s.dropWhile c_isspace).reverse.dropWhile c_isspace).reverse

/-- `should_drop_repetitive_text` (reason string omitted; `true` = drop). -/
def should_drop_repetitive_text (text prev_text : Str) : Bool :=
  let tokens := split_repetition_tokens text
  if tokens = [] then false
  else
    let dominant :=
      tokens.length ≥ 8 &&
        decide ((max_token_count tokens : ℚ) / (tokens.length : ℚ) ≥ 3 / 4)
    if dominant then true
    else if max_consecutive_run tokens ≥ 5 then true
    else if prev_text ≠ [] && text.length > prev_text.length && prev_text.isPrefixOf text then
      let suffix_tokens := split_repetition_tokens (trim (text.drop prev_text.length))
      suffix_tokens.length ≥ 4 && all_same_token suffix_tokens
    else false

/-- The full filter-stage drop decision of the main loop (duplicate check
followed by `should_drop_repetitive_text`), with the stored
`prev_emitted_norm` passed explicitly. -/
def main_filter_drop (hasEmitted : Bool) (prevText prevNorm text : Str) : Bool :=
  let norm := normalize_for_dedup text
  (hasEmitted && !norm.isEmpty && norm = prevNorm) ||
    should_drop_repetitive_text text prevText

/-- Condition (1) of claim C2, word for word: the candidate's
normalization equals the normalized last-published text. -/
def spec_dup_claimed (prevText text : Str) : Bool :=
  normalize_for_dedup text = normalize_for_dedup prevText

/-- Condition (2) of claim C2: at least 8 tokens and the dominant token's
share is at least 0.75. -/
def spec_dominant (text : Str) : Bool :=
  let tokens := split_repetition_tokens text
  tokens.length ≥ 8 &&
    decide ((max_token_count tokens : ℚ) / (tokens.length : ℚ) ≥ 3 / 4)

/-- Condition (3) of claim C2: some run of identical consecutive tokens
has length at least 5. -/
def spec_run5 (text : Str) : Bool :=
  max_consecutive_run (split_repetition_tokens text) ≥ 5

/-- Condition (4) of claim C2, word for word: the candidate starts with the
previous published text as a literal prefix and the trimmed remainder
tokenizes to at least 4 identical tokens. -/
def spec_suffix_claimed (prevText text : Str) : Bool :=
  prevText.isPrefixOf text &&
    (let suffix_tokens := split_repetition_tokens (trim (text.drop prevText.length))
     suffix_tokens.length ≥ 4 && all_same_token suffix_tokens)

/-- The drop predicate exactly as claim C2 states it. -/
def spec_drop_claimed (prevText text : Str) : Bool :=
  spec_dup_claimed prevText text || spec_dominant text || spec_run5 text ||
    spec_suffix_claimed prevText text

/-- Condition (1) as amended: a transcript was previously published and the
candidate's normalization is non-empty and equals the normalized
last-published text. -/
def spec_dup_amended (hasEmitted : Bool) (prevText text : Str) : Bool :=
  hasEmitted && !(normalize_for_dedup text).isEmpty &&
    normalize_for_dedup text = normalize_for_dedup prevText

/-- Condition (4) as amended: the previous published text is non-empty, the
candidate is strictly longer and starts with it, and the trimmed remainder
tokenizes to at least 4 identical tokens. -/
def spec_suffix_amended (prevText text : Str) : Bool :=
  prevText ≠ [] && text.length > prevText.length && prevText.isPrefixOf text &&
    (let suffix_tokens := split_repetition_tokens (trim (text.drop prevText.length))
     suffix_tokens.length ≥ 4 && all_same_token suffix_tokens)

/-- The drop predicate of claim C2 with the amended conditions (1) and (4). -/
def spec_drop_amended (hasEmitted : Bool) (prevText text : Str) : Bool :=
  spec_dup_amended hasEmitted prevText text || spec_dominant text || spec_run5 text ||
    spec_suffix_amended prevText text

/-! ## Window assembler (main loop, lines 1496–1510) -/

/-- `n_samples_take = min(len(previousWindow), max(0, keepSamples + lengthSamples − len(newChunk)))`
(natural subtraction realizes the `max(0, ·)`). -/
def window_take (prevLen chunkLen keepS lenS : Nat) : Nat :=
  min prevLen (keepS + lenS - chunkLen)

/-- One window-assembly cycle: last `take` samples of the previous window
followed by the whole new chunk. -/
def assemble_window (prev chunk : List ℚ) (keepS lenS : Nat) : List ℚ :=
  let take := window_take prev.length chunk.length keepS lenS
  prev.drop (prev.length - take) ++ chunk

/-- One full cycle including the `pcmf32_old = pcmf32` replacement: returns
the inference window together with the previous-window state for the next
cycle. -/
def window_cycle (prev chunk : List ℚ) (keepS lenS : Nat) : List ℚ × List ℚ :=
  let w := assemble_window prev chunk keepS lenS
  (w, w)

/-! ## Adaptive voice gate (`average_abs_energy`, `should_process_audio_chunk`,
and the VAD policy chain of the main loop, lines 1443–1494) -/

/-- `average_abs_energy`: mean absolute sample value (0 for an empty buffer). -/
def average_abs_energy (samples : List ℚ) : ℚ :=
  if samples = [] then 0 else (samples.map (fun x => |x|)).sum / samples.length

/-- `should_process_audio_chunk`: returns the admit decision together with
the `energy_out` and `gate_out` output parameters. -/
def should_process_audio_chunk (samples : List ℚ) (vadThold noiseFloor : ℚ)
    (noiseFloorReady : Bool) : Bool × ℚ × ℚ :=
  if samples = [] then (false, 0, 0)
  else
    let energy := average_abs_energy samples
    let vadUnit := max 0 (min vadThold 1)
    let baseGate : ℚ := 8 / 100000 + 20 / 100000 * vadUnit
    let gate :=
      if noiseFloorReady then max baseGate (noiseFloor * (16 / 10 + 12 / 10 * vadUnit))
      else baseGate
    (decide (energy ≥ gate), energy, gate)

/-- The gate threshold as the spec states it. -/
def spec_gate (vadThold noiseFloor : ℚ) (noiseFloorReady : Bool) : ℚ :=
  let vadUnit := max 0 (min vadThold 1)
  let baseGate : ℚ := 8 / 100000 + 20 / 100000 * vadUnit
  if noiseFloorReady then max baseGate (noiseFloor * (16 / 10 + 12 / 10 * vadUnit))
  else baseGate

/-- Noise-floor update of the main loop (runs every cycle, before the admit
policies). -/
def noise_floor_update (floor energy : ℚ) (ready : Bool) : ℚ :=
  if !ready then energy
  else if energy ≤ floor then 85 / 100 * floor + 15 / 100 * energy
  else 96 / 100 * floor + 4 / 100 * min energy (floor * (13 / 10))

/-- Per-cycle gate state (`noise_floor`, `noise_floor_ready`,
`vad_warmup_chunks`, `vad_stall_chunks`). -/
structure VadState where
  noiseFloor : ℚ
  noiseFloorReady : Bool
  warmupChunks : Nat
  stallChunks : Nat
deriving DecidableEq, Repr

/-- The stall-bypass stage and final admit (lines 1474–1494): on a base
rejection with VAD enabled the stall counter increments and may force-admit;
any admitted window resets the stall counter. -/
def stall_stage (useVad hasVoice : Bool) (vadThold energy : ℚ) (vs : VadState) :
    Bool × VadState :=
  if useVad && !hasVoice then
    let stall := vs.stallChunks + 1
    let vadUnit := max 0 (min vadThold 1)
    let stallGate : ℚ := 2 / 100000 + 8 / 100000 * vadUnit
    if stall ≥ 6 && decide (energy ≥ stallGate) then (true, { vs with stallChunks := 0 })
    else (false, { vs with stallChunks := stall })
  else (true, { vs with stallChunks := 0 })

/-- One pass of the VAD policy chain for one assembled chunk: base decision,
noise-floor update, hard silence floor, warmup bypass, stall bypass.
Returns whether the chunk is admitted to recognition and the next gate
state. -/
def vad_chain_step (useVad : Bool) (vadThold : ℚ) (vs : VadState) (samples : List ℚ) :
    Bool × VadState :=
  let r := should_process_audio_chunk samples vadThold vs.noiseFloor vs.noiseFloorReady
  let hasVoice := r.1
  let energy := r.2.1
  let gate := r.2.2
  let vs1 : VadState :=
    { vs with noiseFloor := noise_floor_update vs.noiseFloor energy vs.noiseFloorReady,
              noiseFloorReady := true }
  if energy < 2 / 100000 then (false, vs1)
  else if useVad && vs1.warmupChunks > 0 then
    if decide (energy ≥ gate * (22 / 10)) then
      stall_stage useVad hasVoice vadThold energy { vs1 with warmupChunks := 0 }
    else (false, { vs1 with warmupChunks := vs1.warmupChunks - 1 })
  else stall_stage useVad hasVoice vadThold energy vs1

/-! ## Versioned state broadcast (`subtitle_state`, the `/events` chunked
content provider, the publish block of the main loop, and the `/api/config`
update, lines 736–746, 1272–1320, 1369–1377, 1599–1609) -/

/-- The shared `subtitle_state` record (mutex and condition variable are the
lock discipline, not data). `version` holds the value of the `uint64_t`
publish counter (a natural number below 2^64; publishes step it modulo
2^64). -/
structure SubtitleState where
  text : Str
  translated : Str
  language : Str
  sourceLang : Str
  targetLang : Str
  version : Nat
  running : Bool
deriving DecidableEq, Repr

/-- What one wake of a subscriber's wait cycle does. -/
inductive SseAction where
  | terminate
  | emit (text translated language : Str)
  | keepalive
deriving DecidableEq, Repr

/-- One wake of the `/events` content provider: the state `st` is the shared
record observed under the lock after `cv.wait_for` returns, `clientVersion`
is the subscriber's locally remembered version.  Returns the action taken
and the new local version. -/
def sse_wake (st : SubtitleState) (clientVersion : Nat) : SseAction × Nat :=
  let ev : Option (Str × Str × Str) :=
    if st.running && decide (st.version > clientVersion) then
      some (st.text, st.translated, st.language)
    else none
  if !st.running then (.terminate, clientVersion)
  else
    match ev with
    | some (t, tr, l) => (.emit t tr l, st.version)
    | none => (.keepalive, clientVersion)

/-- Emission history of the production loop (`has_emitted_text`,
`prev_emitted_text`, `prev_emitted_norm`). -/
structure EmitHistory where
  hasEmitted : Bool
  prevText : Str
  prevNorm : Str
deriving DecidableEq, Repr

/-- One filter-plus-publish step of the production loop, applied to the raw
recognizer text of the current window: trim, drop empty, run the stability
filter, and on acceptance update the shared record (bumping `version`) and
the emission history in the same critical section.  The returned `Bool`
says whether a publish happened.  The counter is a `uint64_t` in the
source, so `state.version++` steps its value modulo 2^64. -/
def publish_step (st : SubtitleState) (em : EmitHistory)
    (rawText translated lang : Str) : SubtitleState × EmitHistory × Bool :=
  let text := trim rawText
  if text = [] then (st, em, false)
  else if main_filter_drop em.hasEmitted em.prevText em.prevNorm text then (st, em, false)
  else
    ({ st with text := text, translated := translated, language := lang,
               version := (st.version + 1) % 2 ^ 64 },
     ⟨true, text, normalize_for_dedup text⟩, true)

/-- The `/api/config` update applied to the shared state (after a successful
`parse_config_update_payload` and source-language validation). -/
structure ConfigUpdatePayload where
  has_target_lang : Bool := false
  has_source_lang : Bool := false
  target_lang : Str := []
  source_lang : Str := []
deriving DecidableEq, Repr

/-- Applying an accepted config-update payload to the shared state
(lines 1369–1377): only the language fields change. -/
def config_apply (st : SubtitleState) (p : ConfigUpdatePayload) : SubtitleState :=
  let st1 := if p.has_source_lang then { st with sourceLang := p.source_lang } else st
  if p.has_target_lang then { st1 with targetLang := p.target_lang } else st1

/-- The shutdown flip of the main thread (lines 1623–1627). -/
def shutdown_flip (st : SubtitleState) : SubtitleState := { st with running := false }

/-! ## JSON codec (`escape_json`, `json_str`, `parse_json_string_token`,
`json_skip_*`, `json_get_string_field`, `parse_config_update_payload`,
lines 318–362, 382–518, 546–599, 608–653) -/

/-- One lowercase hex digit character (as used by `\u%04x` formatting). -/
def hex_digit_char (n : Nat) : Nat := if n < 10 then 48 + n else 87 + n

/-- `escape_json`: escape `"`, `\`, `\n`, `\r`, `\t`, and other control
bytes as `\u00XX`. -/
def escape_json (s : Str) : Str :=
  s.flatMap fun c =>
    if c = 34 then [92, 34]
    else if c = 92 then [92, 92]
    else if c = 10 then [92, 110]
    else if c = 13 then [92, 114]
    else if c = 9 then [92, 116]
    else if c < 32 then [92, 117, 48, 48, hex_digit_char (c / 16), hex_digit_char (c % 16)]
    else [c]

/-- `json_str`: build the field text `"key":"escaped_value"`. -/
def json_str_render (key value : Str) : Str :=
  34 :: key ++ [34, 58, 34] ++ escape_json value ++ [34]

/-- `hex_to_int` (None for a non-hex byte). -/
def hex_to_int (c : Nat) : Option Nat :=
  if 48 ≤ c ∧ c ≤ 57 then some (c - 48)
  else if 97 ≤ c ∧ c ≤ 102 then some (c - 87)
  else if 65 ≤ c ∧ c ≤ 70 then some (c - 55)
  else none

/-- `append_utf8`: UTF-8 encoding of a code point. -/
def append_utf8 (cp : Nat) : Str :=
  if cp ≤ 0x7F then [cp]
  else if cp ≤ 0x7FF then [0xC0 + cp / 64 % 32, 0x80 + cp % 64]
  else if cp ≤ 0xFFFF then [0xE0 + cp / 4096 % 16, 0x80 + cp / 64 % 64, 0x80 + cp % 64]
  else [0xF0 + cp / 262144 % 8, 0x80 + cp / 4096 % 64, 0x80 + cp / 64 % 64, 0x80 + cp % 64]

/-- Body of `parse_json_string_token` after the opening quote: returns the
decoded value and the input remaining after the closing quote, or `none` on
any decode error (unterminated string, raw control byte, bad escape, bad
hex, unpaired high surrogate, lone low surrogate).  The C++ loop strictly
advances through the input, so it is fuelled here; one unit of fuel covers
one loop iteration, i.e. at least one input byte. -/
def parse_string_body : Nat → Str → Option (Str × Str)
  | 0, _ => none
  | _, [] => none
  | Nat.succ fuel, c :: rest =>
    if c = 34 then some ([], rest)
    else if c < 32 then none
    else if c ≠ 92 then (parse_string_body fuel rest).map fun p => (c :: p.1, p.2)
    else
      match rest with
      | 34 :: r => (parse_string_body fuel r).map fun p => (34 :: p.1, p.2)
      | 92 :: r => (parse_string_body fuel r).map fun p => (92 :: p.1, p.2)
      | 47 :: r => (parse_string_body fuel r).map fun p => (47 :: p.1, p.2)
      | 98 :: r => (parse_string_body fuel r).map fun p => (8 :: p.1, p.2)
      | 102 :: r => (parse_string_body fuel r).map fun p => (12 :: p.1, p.2)
      | 110 :: r => (parse_string_body fuel r).map fun p => (10 :: p.1, p.2)
      | 114 :: r => (parse_string_body fuel r).map fun p => (13 :: p.1, p.2)
      | 116 :: r => (parse_string_body fuel r).map fun p => (9 :: p.1, p.2)
      | 117 :: h1 :: h2 :: h3 :: h4 :: r =>
        match hex_to_int h1, hex_to_int h2, hex_to_int h3, hex_to_int h4 with
        | some x1, some x2, some x3, some x4 =>
          let cu1 := ((x1 * 16 + x2) * 16 + x3) * 16 + x4
          if 0xD800 ≤ cu1 ∧ cu1 ≤ 0xDBFF then
            match r with
            | 92 :: 117 :: g1 :: g2 :: g3 :: g4 :: r2 =>
              match hex_to_int g1, hex_to_int g2, hex_to_int g3, hex_to_int g4 with
              | some y1, some y2, some y3, some y4 =>
                let cu2 := ((y1 * 16 + y2) * 16 + y3) * 16 + y4
                if 0xDC00 ≤ cu2 ∧ cu2 ≤ 0xDFFF then
                  (parse_string_body fuel r2).map fun p =>
                    (append_utf8 (0x10000 + (cu1 - 0xD800) * 1024 + (cu2 - 0xDC00)) ++ p.1,
                     p.2)
                else none
              | _, _, _, _ => none
            | _ => none
          else if 0xDC00 ≤ cu1 ∧ cu1 ≤ 0xDFFF then none
          else (parse_string_body fuel r).map fun p => (append_utf8 cu1 ++ p.1, p.2)
        | _, _, _, _ => none
      | _ => none
termination_by structural fuel _ => fuel

/-- `parse_json_string_token`: expects an opening quote at the current
position.  The fuel `s.length + 1` covers one loop iteration per input
byte, which the C++ loop never exceeds. -/
def parse_json_string_token : Str → Option (Str × Str)
  | 34 :: rest => parse_string_body (rest.length + 1) rest
  | _ => none

/-- `json_skip_ws`. -/
def json_skip_ws (s : Str) : Str := s.dropWhile c_isspace

/-- `json_skip_primitive`: consume a maximal non-empty run of bytes up to a
`,`, `}`, `]` or whitespace. -/
def json_skip_primitive : Str → Option Str
  | [] => none
  | c :: rest =>
    if c = 44 || c = 125 || c = 93 || c_isspace c then none
    else some (rest.dropWhile fun b => !(b = 44 || b = 125 || b = 93 || c_isspace b))

mutual

/-- `json_skip_value` (fuelled; the C++ recursion strictly advances, and
the entry points pass fuel larger than the input length). -/
def json_skip_value : Nat → Str → Option Str
  | 0, _ => none
  | Nat.succ fuel, s =>
    let s1 := json_skip_ws s
    match s1 with
    | [] => none
    | c :: _ =>
      if c = 34 then (parse_json_string_token s1).map Prod.snd
      else if c = 123 then json_skip_object fuel s1
      else if c = 91 then json_skip_array fuel s1
      else json_skip_primitive s1
termination_by structural fuel _ => fuel

/-- `json_skip_object`. -/
def json_skip_object : Nat → Str → Option Str
  | 0, _ => none
  | Nat.succ fuel, s =>
    match s with
    | 123 :: rest =>
      let r1 := json_skip_ws rest
      match r1 with
      | 125 :: r2 => some r2
      | _ => json_skip_object_pairs fuel r1
    | _ => none
termination_by structural fuel _ => fuel

/-- The key/value loop of `json_skip_object`. -/
def json_skip_object_pairs : Nat → Str → Option Str
  | 0, _ => none
  | Nat.succ fuel, s =>
    match parse_json_string_token s with
    | none => none
    | some (_, s1) =>
      match json_skip_ws s1 with
      | 58 :: s2 =>
        match json_skip_value fuel s2 with
        | none => none
        | some s3 =>
          match json_skip_ws s3 with
          | 44 :: s4 => json_skip_object_pairs fuel (json_skip_ws s4)
          | 125 :: s4 => some s4
          | _ => none
      | _ => none
termination_by structural fuel _ => fuel

/-- `json_skip_array`. -/
def json_skip_array : Nat → Str → Option Str
  | 0, _ => none
  | Nat.succ fuel, s =>
    match s with
    | 91 :: rest =>
      let r1 := json_skip_ws rest
      match r1 with
      | 93 :: r2 => some r2
      | _ => json_skip_array_items fuel r1
    | _ => none
termination_by structural fuel _ => fuel

/-- The element loop of `json_skip_array`. -/
def json_skip_array_items : Nat → Str → Option Str
  | 0, _ => none
  | Nat.succ fuel, s =>
    match json_skip_value fuel s with
    | none => none
    | some s1 =>
      match json_skip_ws s1 with
      | 44 :: s2 => json_skip_array_items fuel (json_skip_ws s2)
      | 93 :: s2 => some s2
      | _ => none
termination_by structural fuel _ => fuel

end

/-- The field loop of `json_get_string_field`.  `found` carries the value of
the first matching occurrence; the result is `none` on a hard failure
(`return false` inside the loop), and otherwise the `found` state together
with the remaining input at loop exit. -/
def json_get_string_field_pairs : Nat → Str → Str → Option Str →
    Option (Option Str × Str)
  | 0, _, _, _ => none
  | Nat.succ fuel, key, s, found =>
    match s with
    | [] => some (found, [])
    | _ =>
      match parse_json_string_token s with
      | none => none
      | some (name, s1) =>
        match json_skip_ws s1 with
        | 58 :: s2 =>
          let s3 := json_skip_ws s2
          let step : Option (Option Str × Str) :=
            if name = key then
              match parse_json_string_token s3 with
              | none => none
              | some (v, s4) =>
                some ((match found with | some fv => some fv | none => some v), s4)
            else
              match json_skip_value fuel s3 with
              | none => none
              | some s4 => some (found, s4)
          match step with
          | none => none
          | some (found1, s4) =>
            match json_skip_ws s4 with
            | 44 :: s5 => json_get_string_field_pairs fuel key (json_skip_ws s5) found1
            | 125 :: s5 => some (found1, 125 :: s5)
            | _ => none
        | _ => none
termination_by structural fuel _ _ _ => fuel

/-- `json_get_string_field`: extract the string value of the first
occurrence of `key` in a JSON object text.  `out` is the output parameter;
like the C++ function, it is written only on overall success. -/
def json_get_string_field (s key out : Str) : Bool × Str :=
  let s0 := json_skip_ws s
  match s0 with
  | 123 :: rest =>
    let r1 := json_skip_ws rest
    match r1 with
    | 125 :: _ => (false, out)
    | _ =>
      match json_get_string_field_pairs (s.length + 2) key r1 none with
      | none => (false, out)
      | some (found, restEnd) =>
        let restFinal :=
          match restEnd with
          | 125 :: r => json_skip_ws r
          | r => json_skip_ws r
        match found with
        | none => (false, out)
        | some v => if restFinal = [] then (true, v) else (false, out)
  | _ => (false, out)

/-- The word used for the key `"target_lang"`. -/
def key_target_lang : Str := [116, 97, 114, 103, 101, 116, 95, 108, 97, 110, 103]

/-- The word used for the key `"source_lang"`. -/
def key_source_lang : Str := [115, 111, 117, 114, 99, 101, 95, 108, 97, 110, 103]

/-- The field loop of `parse_config_update_payload`: the payload record is
the C++ output parameter and is threaded through (fields already recorded
stay recorded even when the loop later fails).  The first component is
`none` on a hard failure and `some rest` at loop exit. -/
def parse_config_update_pairs : Nat → Str → ConfigUpdatePayload →
    Option Str × ConfigUpdatePayload
  | 0, _, out => (none, out)
  | Nat.succ fuel, s, out =>
    match s with
    | [] => (some [], out)
    | _ =>
      match parse_json_string_token s with
      | none => (none, out)
      | some (name, s1) =>
        match json_skip_ws s1 with
        | 58 :: s2 =>
          let s3 := json_skip_ws s2
          let step : Option (Str × ConfigUpdatePayload) :=
            if name = key_target_lang then
              match parse_json_string_token s3 with
              | none => none
              | some (v, s4) =>
                some (s4, { out with target_lang := v, has_target_lang := true })
            else if name = key_source_lang then
              match parse_json_string_token s3 with
              | none => none
              | some (v, s4) =>
                some (s4, { out with source_lang := v, has_source_lang := true })
            else
              match json_skip_value fuel s3 with
              | none => none
              | some s4 => some (s4, out)
          match step with
          | none => (none, out)
          | some (s4, out1) =>
            match json_skip_ws s4 with
            | 44 :: s5 => parse_config_update_pairs fuel (json_skip_ws s5) out1
            | 125 :: s5 => (some s5, out1)
            | _ => (none, out1)
        | _ => (none, out)
termination_by structural fuel _ _ => fuel

/-- `parse_config_update_payload`: record the `source_lang` / `target_lang`
string fields of a JSON object text into the output record `out`; succeeds
iff parsing completes and at least one of the two fields was present. -/
def parse_config_update_payload (s : Str) (out : ConfigUpdatePayload) :
    Bool × ConfigUpdatePayload :=
  let s0 := json_skip_ws s
  match s0 with
  | 123 :: rest =>
    let r1 := json_skip_ws rest
    match r1 with
    | 125 :: _ => (false, out)
    | _ =>
      match parse_config_update_pairs (s.length + 2) r1 out with
      | (none, out1) => (false, out1)
      | (some restEnd, out1) =>
        if json_skip_ws restEnd = [] then
          (out1.has_target_lang || out1.has_source_lang, out1)
        else (false, out1)
  | _ => (false, out)

/-- A key is rendered literally by `json_str`; it parses back to itself when
it has no quote, backslash or control byte. -/
def plain_key (k : Str) : Prop := ∀ b ∈ k, 32 ≤ b ∧ b ≠ 34 ∧ b ≠ 92

instance : DecidablePred plain_key := fun k => by
  unfold plain_key; infer_instance

/-- Render the fields of an object the way the program's own encoder would
(`"k":"escaped_v"` joined with commas). -/
def render_fields : List (Str × Str) → Str
  | [] => []
  | [(k, v)] => json_str_render k v
  | (k, v) :: rest => json_str_render k v ++ 44 :: render_fields rest

/-- Render a whole JSON object with string-valued fields. -/
def render_object (pairs : List (Str × Str)) : Str :=
  123 :: render_fields pairs ++ [125]

/-- The value of the first occurrence of `key` among the rendered pairs. -/
def first_value (key : Str) : List (Str × Str) → Option Str
  | [] => none
  | (k, v) :: rest => if k = key then some v else first_value key rest

/-- The payload record produced by recording every occurrence of the two
config keys in order (so the last occurrence wins). -/
def config_fold (out : ConfigUpdatePayload) : List (Str × Str) → ConfigUpdatePayload
  | [] => out
  | (k, v) :: rest =>
    if k = key_target_lang then
      config_fold { out with target_lang := v, has_target_lang := true } rest
    else if k = key_source_lang then
      config_fold { out with source_lang := v, has_source_lang := true } rest
    else config_fold out rest

/-! ## Theorems -/

/-- **C3.** For every cycle of the window assembler,
`take = min(len(P), max(0, keepSamples + lengthSamples − len(C)))`; the
produced window is exactly the last `take` samples of the previous window
followed by all of the new chunk, its length is `take + len(C)` with
`0 ≤ take ≤ len(P)` and `take ≤ max(0, keepSamples + lengthSamples − len(C))`,
and the produced window fully replaces the previous window for the next
cycle. -/
theorem window_assembler_cycle_spec (prev chunk : List ℚ) (keepS lenS : Nat) :
    assemble_window prev chunk keepS lenS =
      prev.rtake (window_take prev.length chunk.length keepS lenS) ++ chunk ∧
    (assemble_window prev chunk keepS lenS).length =
      window_take prev.length chunk.length keepS lenS + chunk.length ∧
    window_take prev.length chunk.length keepS lenS ≤ prev.length ∧
    window_take prev.length chunk.length keepS lenS ≤ keepS + lenS - chunk.length ∧
    window_cycle prev chunk keepS lenS =
      (assemble_window prev chunk keepS lenS, assemble_window prev chunk keepS lenS) := by
  have htake : window_take prev.length chunk.length keepS lenS ≤ prev.length :=
    min_le_left _ _
  refine ⟨rfl, ?_, htake, min_le_right _ _, rfl⟩
  simp only [assemble_window, List.length_append, List.length_drop]
  omega

/-- **C6.** For every non-empty sample window, the base admit decision of
`should_process_audio_chunk` returns `true` iff `energy ≥ gate`, where
`energy` is the mean absolute sample value, `vadUnit = clamp(vadThreshold, 0, 1)`,
`baseGate = 0.00008 + 0.00020·vadUnit`, and
`gate = max(baseGate, floor·(1.6 + 1.2·vadUnit))` when the noise floor is
ready, else `gate = baseGate`; the energy and gate output parameters equal
these quantities. -/
theorem base_admit_decision_spec (samples : List ℚ) (vadThold noiseFloor : ℚ)
    (ready : Bool) (hne : samples ≠ []) :
    ((should_process_audio_chunk samples vadThold noiseFloor ready).1 = true ↔
      average_abs_energy samples ≥ spec_gate vadThold noiseFloor ready) ∧
    (should_process_audio_chunk samples vadThold noiseFloor ready).2.1 =
      (samples.map fun x => |x|).sum / samples.length ∧
    (should_process_audio_chunk samples vadThold noiseFloor ready).2.2 =
      spec_gate vadThold noiseFloor ready := by
  refine ⟨?_, ?_, ?_⟩ <;>
    simp [should_process_audio_chunk, spec_gate, average_abs_energy, if_neg hne]

/-- Witness for `base_admit_decision_spec` at a concrete input. -/
theorem base_admit_decision_spec_witness :
    ((should_process_audio_chunk [1] (6 / 10) 0 false).1 = true ↔
      average_abs_energy [1] ≥ spec_gate (6 / 10) 0 false) ∧
    (should_process_audio_chunk [1] (6 / 10) 0 false).2.1 =
      (([1] : List ℚ).map fun x => |x|).sum / ([1] : List ℚ).length ∧
    (should_process_audio_chunk [1] (6 / 10) 0 false).2.2 =
      spec_gate (6 / 10) 0 false :=
  base_admit_decision_spec [1] (6 / 10) 0 false (by simp)

/-- The `energy_out` output of `should_process_audio_chunk` always equals
the mean absolute energy (0 for an empty buffer, by both definitions). -/
theorem energy_out_eq (samples : List ℚ) (vadThold noiseFloor : ℚ) (ready : Bool) :
    (should_process_audio_chunk samples vadThold noiseFloor ready).2.1 =
      average_abs_energy samples := by
  by_cases hs : samples = [] <;>
    simp [should_process_audio_chunk, average_abs_energy, hs]

/-- **C8.** A window whose energy is below 0.00002 is always rejected,
whatever the VAD threshold, noise-floor state, warmup or stall counters,
and whether voice gating is enabled or not. -/
theorem hard_silence_floor_spec (useVad : Bool) (vadThold : ℚ) (vs : VadState)
    (samples : List ℚ) (h : average_abs_energy samples < 2 / 100000) :
    (vad_chain_step useVad vadThold vs samples).1 = false := by
  simp only [vad_chain_step, energy_out_eq, if_pos h]

/-- The energy of the constant window `[0.00001]` is below the hard floor. -/
theorem silent_window_energy : average_abs_energy [(1 : ℚ) / 100000] < 2 / 100000 := by
  norm_num [average_abs_energy, abs_of_pos]

/-- Witness for `hard_silence_floor_spec` at a concrete near-silent window. -/
theorem hard_silence_floor_spec_witness :
    (vad_chain_step true (6 / 10) ⟨0, false, 2, 0⟩ [(1 : ℚ) / 100000]).1 = false :=
  hard_silence_floor_spec true (6 / 10) ⟨0, false, 2, 0⟩ [(1 : ℚ) / 100000]
    silent_window_energy

/-- The `gate_out` output of `should_process_audio_chunk` is positive for a
non-empty window (it is at least the base gate 0.00008). -/
theorem gate_out_pos (samples : List ℚ) (vadThold noiseFloor : ℚ) (ready : Bool)
    (hne : samples ≠ []) :
    0 < (should_process_audio_chunk samples vadThold noiseFloor ready).2.2 := by
  have hunit : (0 : ℚ) ≤ max 0 (min vadThold 1) := le_max_left _ _
  have hbase : (0 : ℚ) < 8 / 100000 + 20 / 100000 * max 0 (min vadThold 1) := by
    nlinarith
  simp only [should_process_audio_chunk, if_neg hne]
  split
  · exact lt_of_lt_of_le hbase (le_max_left _ _)
  · exact hbase

/-- The base admit decision is `energy ≥ gate_out`. -/
theorem has_voice_eq (samples : List ℚ) (vadThold noiseFloor : ℚ) (ready : Bool)
    (hne : samples ≠ []) :
    (should_process_audio_chunk samples vadThold noiseFloor ready).1 =
      decide (average_abs_energy samples ≥
        (should_process_audio_chunk samples vadThold noiseFloor ready).2.2) := by
  simp only [should_process_audio_chunk, average_abs_energy, if_neg hne]

/-- A window whose energy reaches the hard floor is non-empty. -/
theorem window_nonempty_of_energy (samples : List ℚ)
    (h : 2 / 100000 ≤ average_abs_energy samples) : samples ≠ [] := by
  intro hs
  rw [hs] at h
  norm_num [average_abs_energy] at h

/-- **C9 counterexample.** With warmup active (counter 2, VAD enabled), the
near-silent window `[0.00001]` is rejected but the warmup counter does NOT
decrement (the hard silence floor fires first), contradicting the claim
that every rejected window during warmup decrements the counter by one. -/
theorem warmup_decrement_counterexample :
    (0 < (⟨0, false, 2, 0⟩ : VadState).warmupChunks) ∧
    average_abs_energy [(1 : ℚ) / 100000] <
      (should_process_audio_chunk [(1 : ℚ) / 100000] (6 / 10) 0 false).2.2 * (22 / 10) ∧
    (vad_chain_step true (6 / 10) ⟨0, false, 2, 0⟩ [(1 : ℚ) / 100000]).1 = false ∧
    (vad_chain_step true (6 / 10) ⟨0, false, 2, 0⟩ [(1 : ℚ) / 100000]).2.warmupChunks = 2 := by
  refine ⟨by norm_num, ?_, ?_, ?_⟩ <;>
    norm_num [vad_chain_step, should_process_audio_chunk, average_abs_energy,
      noise_floor_update, stall_stage, abs_of_pos]

/-- **C9 (amended).** With voice gating enabled and the warmup counter
positive, a window that passes the hard silence floor (energy ≥ 0.00002) is
accepted iff its energy is at least `gate·2.2` ("obvious" voice); an
obvious-voice window zeroes the warmup counter, any other such window is
rejected with the counter decremented by one, and windows rejected by the
hard silence floor leave the counter unchanged; once the counter is zero it
stays zero forever, so warmup no longer applies. -/
theorem warmup_bypass_amended :
    (∀ (vadThold : ℚ) (vs : VadState) (samples : List ℚ),
      0 < vs.warmupChunks →
      2 / 100000 ≤ average_abs_energy samples →
      ((average_abs_energy samples ≥
          (should_process_audio_chunk samples vadThold vs.noiseFloor
            vs.noiseFloorReady).2.2 * (22 / 10) →
        (vad_chain_step true vadThold vs samples).1 = true ∧
        (vad_chain_step true vadThold vs samples).2.warmupChunks = 0) ∧
       (average_abs_energy samples <
          (should_process_audio_chunk samples vadThold vs.noiseFloor
            vs.noiseFloorReady).2.2 * (22 / 10) →
        (vad_chain_step true vadThold vs samples).1 = false ∧
        (vad_chain_step true vadThold vs samples).2.warmupChunks =
          vs.warmupChunks - 1))) ∧
    (∀ (useVad : Bool) (vadThold : ℚ) (vs : VadState) (samples : List ℚ),
      average_abs_energy samples < 2 / 100000 →
      (vad_chain_step useVad vadThold vs samples).2.warmupChunks = vs.warmupChunks) ∧
    (∀ (useVad : Bool) (vadThold : ℚ) (vs : VadState) (samples : List ℚ),
      vs.warmupChunks = 0 →
      (vad_chain_step useVad vadThold vs samples).2.warmupChunks = 0) := by
  refine ⟨?_, ?_, ?_⟩
  · intro vadThold vs samples hw h2e
    have hne : samples ≠ [] := window_nonempty_of_energy samples h2e
    have hgate := gate_out_pos samples vadThold vs.noiseFloor vs.noiseFloorReady hne
    have hvoice := has_voice_eq samples vadThold vs.noiseFloor vs.noiseFloorReady hne
    constructor
    · intro hobv
      have hv : (should_process_audio_chunk samples vadThold vs.noiseFloor
          vs.noiseFloorReady).1 = true := by
        rw [hvoice, decide_eq_true_iff]
        nlinarith
      simp only [vad_chain_step, energy_out_eq, hv, stall_stage]
      rw [if_neg (not_lt.mpr h2e)]
      simp [hw, hobv, not_lt.mpr (le_of_lt hgate)]
    · intro hnobv
      simp only [vad_chain_step, energy_out_eq]
      rw [if_neg (not_lt.mpr h2e)]
      simp [hw, not_le.mpr hnobv]
  · intro useVad vadThold vs samples h
    simp only [vad_chain_step, energy_out_eq]
    rw [if_pos h]
  · intro useVad vadThold vs samples h0
    simp only [vad_chain_step, energy_out_eq, stall_stage, h0]
    split_ifs <;> simp [h0]

/-- Witness for `warmup_bypass_amended` at concrete inputs: an obvious-voice
window (energy 0.01) during warmup is admitted with the counter zeroed. -/
theorem warmup_bypass_amended_witness :
    (vad_chain_step true (6 / 10) ⟨0, true, 2, 0⟩ [(1 : ℚ) / 100]).1 = true ∧
    (vad_chain_step true (6 / 10) ⟨0, true, 2, 0⟩ [(1 : ℚ) / 100]).2.warmupChunks = 0 :=
  (warmup_bypass_amended.1 (6 / 10) ⟨0, true, 2, 0⟩ [(1 : ℚ) / 100]
    (by norm_num)
    (by norm_num [average_abs_energy, abs_of_pos])).1
    (by norm_num [average_abs_energy, should_process_audio_chunk, abs_of_pos])

/-- **C10.** With voice gating disabled (`use_vad = false`), a window is
admitted iff its energy is at least the hard silence floor 0.00002 — the
gate value is ignored; the warmup counter is never touched; the stall
counter is never incremented (it is only reset on an admitted window, so it
stays at its initial 0 forever); and the noise floor is still updated every
cycle. -/
theorem vad_disabled_admission (vadThold : ℚ) (vs : VadState) (samples : List ℚ) :
    ((vad_chain_step false vadThold vs samples).1 =
      decide (2 / 100000 ≤ average_abs_energy samples)) ∧
    (vad_chain_step false vadThold vs samples).2.warmupChunks = vs.warmupChunks ∧
    ((vad_chain_step false vadThold vs samples).2.stallChunks =
      if average_abs_energy samples < 2 / 100000 then vs.stallChunks else 0) ∧
    (vad_chain_step false vadThold vs samples).2.noiseFloor =
      noise_floor_update vs.noiseFloor (average_abs_energy samples) vs.noiseFloorReady ∧
    (vad_chain_step false vadThold vs samples).2.noiseFloorReady = true := by
  by_cases h1 : average_abs_energy samples < 2 / 100000
  · simp [vad_chain_step, energy_out_eq, stall_stage, h1, not_le.mpr h1]
  · simp [vad_chain_step, energy_out_eq, stall_stage, h1, not_lt.mp h1]

/-- **C1 counterexample.** A subscriber whose local version (0) is behind
the published version (1) but which wakes after the shutdown flip
(`running = false`) terminates WITHOUT emitting the final state: the claim
that a lagging subscriber always emits and advances before it can
terminate — and in particular always emits the final state published
before the `running` flip — is false. -/
theorem subscriber_final_state_counterexample :
    0 < (SubtitleState.mk [104, 105] [] [101, 110] [] [] 1 false).version ∧
    sse_wake (SubtitleState.mk [104, 105] [] [101, 110] [] [] 1 false) 0 =
      (SseAction.terminate, 0) := by
  exact ⟨by decide, by decide⟩

/-- **C1 (amended).** Per wake cycle of a subscriber: if `running` is still
true and the local version is behind, the subscriber emits the current
record and advances its local version to the published version; if
`running` is false at wake it terminates immediately (possibly skipping a
final state published just before the flip); if `running` is true and the
version has not advanced it emits a keepalive; and the local version never
decreases, so emitted states are observed in strictly increasing version
order. -/
theorem subscriber_wake_cycle_amended :
    (∀ (st : SubtitleState) (cv : Nat), st.running = true → cv < st.version →
      sse_wake st cv = (SseAction.emit st.text st.translated st.language, st.version)) ∧
    (∀ (st : SubtitleState) (cv : Nat), st.running = false →
      sse_wake st cv = (SseAction.terminate, cv)) ∧
    (∀ (st : SubtitleState) (cv : Nat), st.running = true → st.version ≤ cv →
      sse_wake st cv = (SseAction.keepalive, cv)) ∧
    (∀ (st : SubtitleState) (cv : Nat), cv ≤ (sse_wake st cv).2) := by
  refine ⟨?_, ?_, ?_, ?_⟩
  · intro st cv hr hv
    simp [sse_wake, hr, hv, le_of_lt hv]
  · intro st cv hr
    simp [sse_wake, hr]
  · intro st cv hr hv
    simp [sse_wake, hr, not_lt.mpr hv]
  · intro st cv
    by_cases hr : st.running
    · by_cases hv : cv < st.version
      · simp [sse_wake, hr, hv, le_of_lt hv]
      · simp [sse_wake, hr, hv]
    · simp [sse_wake, Bool.not_eq_true _ |>.mp hr]

/-- Witness for `subscriber_wake_cycle_amended`: a live subscriber one
version behind emits the record and advances to version 1. -/
theorem subscriber_wake_cycle_amended_witness :
    sse_wake (SubtitleState.mk [104] [] [107, 111] [] [] 1 true) 0 =
      (SseAction.emit [104] [] [107, 111], 1) :=
  subscriber_wake_cycle_amended.1 (SubtitleState.mk [104] [] [107, 111] [] [] 1 true) 0
    (by decide) (by decide)

/-- **C7 counterexample.** The publish counter is a `uint64_t`
(`state.version++`): at version 2^64 − 1 an accepted publish wraps the
counter to 0, so at that step the version is neither incremented by one nor
non-decreasing, refuting the claim as universally stated. -/
theorem version_wraparound_counterexample :
    (publish_step ⟨[], [], [], [], [], 2 ^ 64 - 1, true⟩ ⟨false, [], []⟩
        [104] [] []).2.2 = true ∧
    (publish_step ⟨[], [], [], [], [], 2 ^ 64 - 1, true⟩ ⟨false, [], []⟩
        [104] [] []).1.version = 0 ∧
    (publish_step ⟨[], [], [], [], [], 2 ^ 64 - 1, true⟩ ⟨false, [], []⟩
        [104] [] []).1.version ≠ 2 ^ 64 - 1 + 1 ∧
    (publish_step ⟨[], [], [], [], [], 2 ^ 64 - 1, true⟩ ⟨false, [], []⟩
        [104] [] []).1.version < 2 ^ 64 - 1 := by
  exact ⟨by decide, by decide, by decide, by decide⟩

/-- **C7 (amended).** The published version changes only at an accepted
publish, stepping to `(version + 1) % 2^64` (the `uint64_t` increment)
together with the full text/translated/language update in the same critical
section; whenever the counter has not yet reached 2^64 − 1 this is an
increment by exactly one, so the counter is monotonically non-decreasing
until 2^64 publishes have occurred (and it always remains a valid
`uint64_t` value); a dropped (or empty) candidate changes neither the
shared record nor the last-published reference
(`lastEmittedText`/`lastEmittedNormalized`), which only an accepted
candidate updates; and neither a subscriber wake (read-only by
construction) nor a config update nor the shutdown flip changes the
version. -/
theorem version_publish_wrap_invariants (st : SubtitleState) (em : EmitHistory)
    (rawText translated lang : Str) :
    ((publish_step st em rawText translated lang).1.version = st.version ∨
      (publish_step st em rawText translated lang).1.version =
        (st.version + 1) % 2 ^ 64) ∧
    ((publish_step st em rawText translated lang).2.2 = false →
      (publish_step st em rawText translated lang).1 = st ∧
      (publish_step st em rawText translated lang).2.1 = em) ∧
    ((publish_step st em rawText translated lang).2.2 = true →
      (publish_step st em rawText translated lang).1.version =
        (st.version + 1) % 2 ^ 64 ∧
      (publish_step st em rawText translated lang).1.text = trim rawText ∧
      (publish_step st em rawText translated lang).1.translated = translated ∧
      (publish_step st em rawText translated lang).1.language = lang ∧
      (publish_step st em rawText translated lang).2.1 =
        ⟨true, trim rawText, normalize_for_dedup (trim rawText)⟩) ∧
    ((publish_step st em rawText translated lang).2.2 = true →
      st.version + 1 < 2 ^ 64 →
      (publish_step st em rawText translated lang).1.version = st.version + 1) ∧
    (st.version < 2 ^ 64 →
      (publish_step st em rawText translated lang).1.version < 2 ^ 64) ∧
    ((publish_step st em rawText translated lang).2.2 = true ↔
      trim rawText ≠ [] ∧
      main_filter_drop em.hasEmitted em.prevText em.prevNorm (trim rawText) = false) ∧
    (∀ p : ConfigUpdatePayload, (config_apply st p).version = st.version) ∧
    (shutdown_flip st).version = st.version := by
  refine ⟨?_, ?_, ?_, ?_, ?_, ?_, ?_, rfl⟩
  · by_cases h1 : trim rawText = []
    · simp [publish_step, h1]
    · by_cases h2 : main_filter_drop em.hasEmitted em.prevText em.prevNorm (trim rawText) <;>
        simp [publish_step, h1, h2]
  · intro hpub
    by_cases h1 : trim rawText = []
    · simp [publish_step, h1]
    · by_cases h2 : main_filter_drop em.hasEmitted em.prevText em.prevNorm (trim rawText)
      · simp [publish_step, h1, h2]
      · simp [publish_step, h1, h2] at hpub
  · intro hpub
    by_cases h1 : trim rawText = []
    · simp [publish_step, h1] at hpub
    · by_cases h2 : main_filter_drop em.hasEmitted em.prevText em.prevNorm (trim rawText)
      · simp [publish_step, h1, h2] at hpub
      · simp [publish_step, h1, h2]
  · intro hpub hlt
    have hlt2 : st.version + 1 < 18446744073709551616 := by
      norm_num at hlt
      exact hlt
    by_cases h1 : trim rawText = []
    · simp [publish_step, h1] at hpub
    · by_cases h2 : main_filter_drop em.hasEmitted em.prevText em.prevNorm (trim rawText)
      · simp [publish_step, h1, h2] at hpub
      · simp [publish_step, h1, h2, Nat.mod_eq_of_lt hlt2]
  · intro hlt
    by_cases h1 : trim rawText = []
    · simpa [publish_step, h1] using hlt
    · by_cases h2 : main_filter_drop em.hasEmitted em.prevText em.prevNorm (trim rawText)
      · simpa [publish_step, h1, h2] using hlt
      · have hm : (st.version + 1) % 18446744073709551616 < 18446744073709551616 :=
          Nat.mod_lt _ (by norm_num)
        simp [publish_step, h1, h2, hm]
  · by_cases h1 : trim rawText = []
    · simp [publish_step, h1]
    · by_cases h2 : main_filter_drop em.hasEmitted em.prevText em.prevNorm (trim rawText) <;>
        simp [publish_step, h1, h2]
  · intro p
    simp only [config_apply]
    split_ifs <;> simp

/-- Elements surviving `dropWhile p` all satisfy `p` iff all elements do. -/
theorem forall_dropWhile_iff (p : Nat → Bool) (l : List Nat) :
    (∀ x ∈ l.dropWhile p, p x = true) ↔ (∀ x ∈ l, p x = true) := by
  induction l with
  | nil => simp
  | cons a l ih =>
    by_cases hp : p a = true <;> simp [List.dropWhile_cons, hp, ih]

/-- A token normalizes to the empty token iff it is pure punctuation. -/
theorem normalize_repeat_token_eq_nil (tok : Str) :
    normalize_repeat_token tok = [] ↔ ∀ b ∈ tok, c_ispunct b = true := by
  simp only [normalize_repeat_token, List.map_eq_nil_iff, List.reverse_eq_nil_iff,
    List.dropWhile_eq_nil_iff, List.mem_reverse]
  exact forall_dropWhile_iff _ _

/-- A raw token flushes to nothing iff it is pure punctuation. -/
theorem flush_token_eq_nil (current : Str) :
    flush_token current = [] ↔ ∀ b ∈ current, c_ispunct b = true := by
  by_cases h : current = []
  · simp [flush_token, h]
  · simp only [flush_token, if_neg h]
    by_cases hn : normalize_repeat_token current = []
    · rw [if_pos hn]
      exact iff_of_true rfl ((normalize_repeat_token_eq_nil current).mp hn)
    · simp only [if_neg hn]
      rw [← normalize_repeat_token_eq_nil current]
      simp [hn]

/-- The token list is empty iff every byte of the accumulated token and of
the remaining text is whitespace or punctuation (invariant: the accumulated
token holds no whitespace). -/
theorem split_tokens_go_eq_nil (s current : Str)
    (hc : ∀ b ∈ current, c_isspace b = false) :
    split_tokens_go current s = [] ↔
      ∀ b ∈ current ++ s, c_isspace b = true ∨ c_ispunct b = true := by
  induction s generalizing current with
  | nil =>
    rw [split_tokens_go, List.append_nil, flush_token_eq_nil]
    constructor
    · intro h b hb
      exact Or.inr (h b hb)
    · intro h b hb
      rcases h b hb with hs | hp
      · rw [hc b hb] at hs
        cases hs
      · exact hp
  | cons c rest ih =>
    by_cases hsp : c_isspace c = true
    · rw [show split_tokens_go current (c :: rest) =
            flush_token current ++ split_tokens_go [] rest by
          simp [split_tokens_go, hsp]]
      rw [List.append_eq_nil, flush_token_eq_nil, ih [] (by simp)]
      constructor
      · rintro ⟨h1, h2⟩ b hb
        rcases List.mem_append.mp hb with hb | hb
        · exact Or.inr (h1 b hb)
        · rcases List.mem_cons.mp hb with rfl | hb
          · exact Or.inl hsp
          · exact h2 b (List.mem_append.mpr (Or.inr hb))
      · intro h
        constructor
        · intro b hb
          rcases h b (List.mem_append.mpr (Or.inl hb)) with hs | hp
          · rw [hc b hb] at hs
            cases hs
          · exact hp
        · intro b hb
          rcases List.mem_append.mp hb with hb | hb
          · cases List.not_mem_nil b hb
          · exact h b (List.mem_append.mpr (Or.inr (List.mem_cons.mpr (Or.inr hb))))
    · have hc2 : ∀ b ∈ current ++ [c], c_isspace b = false := by
        intro b hb
        rcases List.mem_append.mp hb with hb | hb
        · exact hc b hb
        · rcases List.mem_singleton.mp hb with rfl
          exact Bool.not_eq_true _ |>.mp hsp
      rw [show split_tokens_go current (c :: rest) =
            split_tokens_go (current ++ [c]) rest by
          simp [split_tokens_go, hsp]]
      rw [ih (current ++ [c]) hc2, List.append_cons current c rest]

/-- A text tokenizes to nothing iff it is all whitespace/punctuation. -/
theorem split_repetition_tokens_eq_nil (s : Str) :
    split_repetition_tokens s = [] ↔
      ∀ b ∈ s, c_isspace b = true ∨ c_ispunct b = true := by
  simpa [split_repetition_tokens] using split_tokens_go_eq_nil s [] (by simp)

/-- Bytes of a trimmed text are bytes of the text. -/
theorem mem_of_mem_trim (s : Str) (b : Nat) (hb : b ∈ trim s) : b ∈ s := by
  simp only [trim, List.mem_reverse] at hb
  have h1 : b ∈ (s.dropWhile c_isspace).reverse :=
    List.Sublist.mem hb (List.dropWhile_sublist _)
  rw [List.mem_reverse] at h1
  exact List.Sublist.mem h1 (List.dropWhile_sublist _)

/-- If a text has no tokens, neither has any trimmed suffix of it. -/
theorem suffix_tokens_eq_nil (text : Str) (n : Nat)
    (h : split_repetition_tokens text = []) :
    split_repetition_tokens (trim (text.drop n)) = [] := by
  rw [split_repetition_tokens_eq_nil] at h ⊢
  intro b hb
  exact h b (List.mem_of_mem_drop (mem_of_mem_trim _ b hb))

/-- **C2 counterexample.** With last-published text `"!!!"` (whose
normalization is empty) and candidate `"???"`, the claim's condition (1)
holds (both normalizations are the empty string), so the claim says the
candidate is dropped; the code publishes it (the duplicate check requires a
non-empty normalization). -/
theorem stability_filter_counterexample :
    main_filter_drop true [33, 33, 33] (normalize_for_dedup [33, 33, 33])
      [63, 63, 63] = false ∧
    spec_drop_claimed [33, 33, 33] [63, 63, 63] = true := by
  exact ⟨by decide, by decide⟩

/-- **C2 (amended).** The filter stage drops a candidate exactly when one
of the four conditions holds, with condition (1) additionally requiring
that a transcript was previously published and that the candidate's
normalization is non-empty, and condition (4) additionally requiring that
the previous published text is non-empty and the candidate strictly longer
than it. -/
theorem stability_filter_decision_amended (hasEmitted : Bool) (prevText text : Str) :
    main_filter_drop hasEmitted prevText (normalize_for_dedup prevText) text =
      spec_drop_amended hasEmitted prevText text := by
  have hmain : should_drop_repetitive_text text prevText =
      (spec_dominant text || spec_run5 text || spec_suffix_amended prevText text) := by
    by_cases htok : split_repetition_tokens text = []
    · have hsuff := suffix_tokens_eq_nil text prevText.length htok
      simp [should_drop_repetitive_text, spec_dominant, spec_run5,
        spec_suffix_amended, htok, hsuff, max_consecutive_run]
    · simp only [should_drop_repetitive_text, if_neg htok]
      by_cases h8 : 8 ≤ (split_repetition_tokens text).length
      all_goals by_cases hq : (3 / 4 : ℚ) ≤
        (max_token_count (split_repetition_tokens text) : ℚ) /
          ((split_repetition_tokens text).length : ℚ)
      all_goals by_cases hr : 5 ≤ max_consecutive_run (split_repetition_tokens text)
      all_goals by_cases hp1 : prevText = []
      all_goals by_cases hp2 : prevText.length < text.length
      all_goals by_cases hp3 : prevText <+: text
      all_goals simp [spec_dominant, spec_run5, spec_suffix_amended,
        List.isPrefixOf_iff_prefix, h8, hq, hr, hp1, hp2, hp3]
  simp only [main_filter_drop, spec_drop_amended, spec_dup_amended, hmain]
  cases hasEmitted <;> simp [Bool.or_assoc]

/-- Witness for `version_publish_wrap_invariants`: publishing the fresh
text "hi" from the initial state (version 0, below the wrap point) bumps
the version to exactly 1. -/
theorem version_publish_wrap_invariants_witness :
    (publish_step ⟨[], [], [], [], [], 0, true⟩ ⟨false, [], []⟩
        [104, 105] [] [101, 110]).1.version = 0 + 1 :=
  (version_publish_wrap_invariants ⟨[], [], [], [], [], 0, true⟩ ⟨false, [], []⟩
    [104, 105] [] [101, 110]).2.2.2.1 (by decide) (by decide)

/-- `hex_to_int` inverts `hex_digit_char` on a nibble. -/
theorem hex_to_int_hex_digit_char (n : Nat) (h : n < 16) :
    hex_to_int (hex_digit_char n) = some n := by
  unfold hex_digit_char hex_to_int
  split_ifs <;> (congr 1; omega)

/-- Escaping never shortens a string. -/
theorem length_le_length_escape (v : Str) : v.length ≤ (escape_json v).length := by
  induction v with
  | nil => simp [escape_json]
  | cons b v ih =>
    simp only [escape_json, List.flatMap_cons] at ih ⊢
    have h1 : 1 ≤ (if b = 34 then [92, 34]
        else if b = 92 then [92, 92]
        else if b = 10 then [92, 110]
        else if b = 13 then [92, 114]
        else if b = 9 then [92, 116]
        else if b < 32 then [92, 117, 48, 48, hex_digit_char (b / 16), hex_digit_char (b % 16)]
        else [b]).length := by
      split_ifs <;> simp
    simp only [List.length_append, List.length_cons]
    omega

/-- Unfolding: a closing quote ends the string. -/
theorem psb_quote (f : Nat) (rest : Str) :
    parse_string_body (f + 1) (34 :: rest) = some ([], rest) := rfl

set_option maxHeartbeats 2000000 in
/-- Unfolding: an ordinary byte is copied. -/
theorem psb_raw (f c : Nat) (rest : Str) (h1 : c ≠ 34) (h2 : ¬ c < 32) (h3 : c ≠ 92) :
    parse_string_body (f + 1) (c :: rest) =
      (parse_string_body f rest).map fun p => (c :: p.1, p.2) := by
  simp [parse_string_body, h1, h2, h3]

/-- Unfolding: the escape `\"`. -/
theorem psb_esc_quote (f : Nat) (rest : Str) :
    parse_string_body (f + 1) (92 :: 34 :: rest) =
      (parse_string_body f rest).map fun p => (34 :: p.1, p.2) := rfl

/-- Unfolding: the escape `\\`. -/
theorem psb_esc_backslash (f : Nat) (rest : Str) :
    parse_string_body (f + 1) (92 :: 92 :: rest) =
      (parse_string_body f rest).map fun p => (92 :: p.1, p.2) := rfl

/-- Unfolding: the escape `\n`. -/
theorem psb_esc_n (f : Nat) (rest : Str) :
    parse_string_body (f + 1) (92 :: 110 :: rest) =
      (parse_string_body f rest).map fun p => (10 :: p.1, p.2) := rfl

/-- Unfolding: the escape `\r`. -/
theorem psb_esc_r (f : Nat) (rest : Str) :
    parse_string_body (f + 1) (92 :: 114 :: rest) =
      (parse_string_body f rest).map fun p => (13 :: p.1, p.2) := rfl

/-- Unfolding: the escape `\t`. -/
theorem psb_esc_t (f : Nat) (rest : Str) :
    parse_string_body (f + 1) (92 :: 116 :: rest) =
      (parse_string_body f rest).map fun p => (9 :: p.1, p.2) := rfl

/-- Unfolding: the escape `\u00XX` of a control byte. -/
theorem psb_esc_u_control (f : Nat) (b : Nat) (rest : Str) (hb : b < 32) :
    parse_string_body (f + 1)
        (92 :: 117 :: 48 :: 48 :: hex_digit_char (b / 16) :: hex_digit_char (b % 16) :: rest) =
      (parse_string_body f rest).map fun p => (b :: p.1, p.2) := by
  have hhi : hex_to_int (hex_digit_char (b / 16)) = some (b / 16) :=
    hex_to_int_hex_digit_char _ (by omega)
  have hlo : hex_to_int (hex_digit_char (b % 16)) = some (b % 16) :=
    hex_to_int_hex_digit_char _ (by omega)
  have hcu : ((0 * 16 + 0) * 16 + b / 16) * 16 + b % 16 = b := by omega
  have h48 : hex_to_int 48 = some 0 := rfl
  simp only [parse_string_body, h48, hhi, hlo, hcu]
  rw [if_neg (show ¬(55296 ≤ b ∧ b ≤ 56319) by omega),
    if_neg (show ¬(56320 ≤ b ∧ b ≤ 57343) by omega)]
  simp [append_utf8, show b ≤ 127 by omega]

/-- A plain (quote-, backslash- and control-free) key parses back to itself. -/
theorem parse_string_body_plain (k : Str) (rest : Str) :
    ∀ fuel, plain_key k → k.length + 1 ≤ fuel →
      parse_string_body fuel (k ++ 34 :: rest) = some (k, rest) := by
  induction k with
  | nil =>
    intro fuel _ hf
    cases fuel with
    | zero => omega
    | succ f => simpa using psb_quote f rest
  | cons b k ih =>
    intro fuel hk hf
    have hb := hk b (List.mem_cons_self b k)
    cases fuel with
    | zero => omega
    | succ f =>
      have hr : parse_string_body f (k ++ 34 :: rest) = some (k, rest) :=
        ih f (fun x hx => hk x (List.mem_cons_of_mem b hx)) (by simp at hf; omega)
      rw [List.cons_append, psb_raw f b _ hb.2.1 (by omega) hb.2.2, hr]
      rfl

/-- The escaping of `escape_json` parses back to the original byte string
(round trip of the codec on string contents). -/
theorem parse_string_body_escape (v : Str) :
    ∀ (rest : Str) (fuel : Nat), v.length + 1 ≤ fuel →
      parse_string_body fuel (escape_json v ++ 34 :: rest) = some (v, rest) := by
  induction v with
  | nil =>
    intro rest fuel hf
    cases fuel with
    | zero => omega
    | succ f => simpa [escape_json] using psb_quote f rest
  | cons b v ih =>
    intro rest fuel hf
    cases fuel with
    | zero => omega
    | succ f =>
      have hrec : parse_string_body f (escape_json v ++ 34 :: rest) = some (v, rest) :=
        ih rest f (by simp at hf; omega)
      by_cases h34 : b = 34
      · subst h34
        have hch : escape_json (34 :: v) = 92 :: 34 :: escape_json v := by
          simp [escape_json]
        rw [hch, List.cons_append, List.cons_append, psb_esc_quote f _, hrec]
        rfl
      · by_cases h92 : b = 92
        · subst h92
          have hch : escape_json (92 :: v) = 92 :: 92 :: escape_json v := by
            simp [escape_json]
          rw [hch, List.cons_append, List.cons_append, psb_esc_backslash f _, hrec]
          rfl
        · by_cases h10 : b = 10
          · subst h10
            have hch : escape_json (10 :: v) = 92 :: 110 :: escape_json v := by
              simp [escape_json]
            rw [hch, List.cons_append, List.cons_append, psb_esc_n f _, hrec]
            rfl
          · by_cases h13 : b = 13
            · subst h13
              have hch : escape_json (13 :: v) = 92 :: 114 :: escape_json v := by
                simp [escape_json]
              rw [hch, List.cons_append, List.cons_append, psb_esc_r f _, hrec]
              rfl
            · by_cases h9 : b = 9
              · subst h9
                have hch : escape_json (9 :: v) = 92 :: 116 :: escape_json v := by
                  simp [escape_json]
                rw [hch, List.cons_append, List.cons_append, psb_esc_t f _, hrec]
                rfl
              · by_cases hctl : b < 32
                · have hch : escape_json (b :: v) = 92 :: 117 :: 48 :: 48 ::
                      hex_digit_char (b / 16) :: hex_digit_char (b % 16) :: escape_json v := by
                    simp [escape_json, h34, h92, h10, h13, h9, hctl]
                  rw [hch]
                  simp only [List.cons_append]
                  rw [psb_esc_u_control f b _ hctl, hrec]
                  rfl
                · have hch : escape_json (b :: v) = b :: escape_json v := by
                    simp [escape_json, h34, h92, h10, h13, h9, hctl]
                  rw [hch, List.cons_append, psb_raw f b _ h34 hctl h92, hrec]
                  rfl

/-- Entry-level round trip for a plain key token. -/
theorem parse_token_plain (k rest : Str) (hk : plain_key k) :
    parse_json_string_token (34 :: (k ++ 34 :: rest)) = some (k, rest) := by
  have h : parse_json_string_token (34 :: (k ++ 34 :: rest)) =
      parse_string_body ((k ++ 34 :: rest).length + 1) (k ++ 34 :: rest) := rfl
  rw [h]
  exact parse_string_body_plain k rest _ hk (by simp)

/-- Entry-level round trip for an escaped value token. -/
theorem parse_token_escape (v rest : Str) :
    parse_json_string_token (34 :: (escape_json v ++ 34 :: rest)) = some (v, rest) := by
  have h : parse_json_string_token (34 :: (escape_json v ++ 34 :: rest)) =
      parse_string_body ((escape_json v ++ 34 :: rest).length + 1)
        (escape_json v ++ 34 :: rest) := rfl
  rw [h]
  refine parse_string_body_escape v rest _ ?_
  have := length_le_length_escape v
  simp
  omega

/-- Whitespace skipping is the identity on a string whose head is not
whitespace. -/
theorem json_skip_ws_not_ws (c : Nat) (rest : Str) (h : c_isspace c = false) :
    json_skip_ws (c :: rest) = c :: rest := by
  simp [json_skip_ws, List.dropWhile_cons, h]

/-- Rendered fields always start with a quote byte. -/
theorem render_fields_cons_head (k v : Str) (rest : List (Str × Str)) :
    render_fields ((k, v) :: rest) = 34 :: (k ++ [34, 58, 34] ++ escape_json v ++ [34] ++
      match rest with
      | [] => []
      | _ :: _ => 44 :: render_fields rest) := by
  cases rest <;> simp [render_fields, json_str_render]

/-- `json_skip_value` on a string value is the string token parse. -/
theorem json_skip_value_string (f : Nat) (tl : Str) :
    json_skip_value (f + 1) (34 :: tl) =
      (parse_json_string_token (34 :: tl)).map Prod.snd := by
  rfl

/-- Rendered non-empty field lists are not whitespace-led. -/
theorem json_skip_ws_render (p : Str × Str) (rs : List (Str × Str)) :
    json_skip_ws (render_fields (p :: rs) ++ [125]) =
      render_fields (p :: rs) ++ [125] := by
  obtain ⟨k, v⟩ := p
  rw [render_fields_cons_head, List.cons_append]
  exact json_skip_ws_not_ws 34 _ rfl

/-- The `json_get_string_field` loop on a rendered field list always
reaches the closing brace and accumulates the first occurrence of `key`. -/
theorem json_get_string_field_pairs_render (pairs : List (Str × Str)) :
    ∀ (key : Str) (found : Option Str) (fuel : Nat),
      pairs ≠ [] → (∀ p ∈ pairs, plain_key p.1) → pairs.length + 1 ≤ fuel →
      json_get_string_field_pairs fuel key (render_fields pairs ++ [125]) found =
        some (found.or (first_value key pairs), [125]) := by
  induction pairs with
  | nil => intro _ _ _ hne; cases hne rfl
  | cons p rest ih =>
    obtain ⟨k, v⟩ := p
    intro key found fuel _ hpl hf
    have hk : plain_key k := hpl (k, v) (List.mem_cons_self _ _)
    cases fuel with
    | zero => simp at hf
    | succ f =>
      have hf1 : 1 ≤ f := by simp at hf; omega
      cases rest with
      | nil =>
        have hs : render_fields [(k, v)] ++ [125] =
            34 :: (k ++ 34 :: (58 :: 34 :: (escape_json v ++ 34 :: [125]))) := by
          simp [render_fields, json_str_render]
        rw [hs]
        have hkp := parse_token_plain k (58 :: 34 :: (escape_json v ++ 34 :: [125])) hk
        have hvp := parse_token_escape v [125]
        by_cases hkey : k = key
        · simp only [json_get_string_field_pairs, hkp]
          rw [json_skip_ws_not_ws 58 _ rfl]
          simp only [if_pos hkey]
          rw [json_skip_ws_not_ws 34 _ rfl]
          simp only [hvp]
          rw [json_skip_ws_not_ws 125 _ rfl]
          cases found <;> simp [first_value, hkey, Option.or]
        · cases f with
          | zero => omega
          | succ f2 =>
            have hsv := json_skip_value_string f2 (escape_json v ++ 34 :: [125])
            simp only [json_get_string_field_pairs, hkp]
            rw [json_skip_ws_not_ws 58 _ rfl]
            simp only [if_neg hkey]
            rw [json_skip_ws_not_ws 34 _ rfl]
            simp only [hsv, hvp, Option.map_some']
            rw [json_skip_ws_not_ws 125 _ rfl]
            simp [first_value, hkey, Option.or_none]
      | cons q rest2 =>
        have hs : render_fields ((k, v) :: q :: rest2) ++ [125] =
            34 :: (k ++ 34 :: (58 :: 34 :: (escape_json v ++ 34 ::
              (44 :: (render_fields (q :: rest2) ++ [125]))))) := by
          simp [render_fields_cons_head k v (q :: rest2)]
        rw [hs]
        have hkp := parse_token_plain k
          (58 :: 34 :: (escape_json v ++ 34 ::
            (44 :: (render_fields (q :: rest2) ++ [125])))) hk
        have hvp := parse_token_escape v (44 :: (render_fields (q :: rest2) ++ [125]))
        have hrec := ih key
        have hih : ∀ found1, json_get_string_field_pairs f key
            (render_fields (q :: rest2) ++ [125]) found1 =
            some (found1.or (first_value key (q :: rest2)), [125]) := by
          intro found1
          exact ih key found1 f (by simp)
            (fun x hx => hpl x (List.mem_cons_of_mem _ hx)) (by simp at hf ⊢; omega)
        by_cases hkey : k = key
        · simp only [json_get_string_field_pairs, hkp]
          rw [json_skip_ws_not_ws 58 _ rfl]
          simp only [if_pos hkey]
          rw [json_skip_ws_not_ws 34 _ rfl]
          simp only [hvp]
          simp only [json_skip_ws_not_ws 44 _ rfl, json_skip_ws_render q rest2]
          cases found <;>
            simp [hih, first_value, hkey, Option.or]
        · simp only [json_get_string_field_pairs, hkp]
          rw [json_skip_ws_not_ws 58 _ rfl]
          simp only [if_neg hkey]
          rw [json_skip_ws_not_ws 34 _ rfl]
          cases f with
          | zero => omega
          | succ f2 =>
            have hsv := json_skip_value_string f2
              (escape_json v ++ 34 :: (44 :: (render_fields (q :: rest2) ++ [125])))
            simp only [hsv, hvp, Option.map_some']
            simp only [json_skip_ws_not_ws 44 _ rfl, json_skip_ws_render q rest2]
            simp [hih, first_value, hkey]

/-- A rendered field list is at least as long as the pair list. -/
theorem render_fields_length (pairs : List (Str × Str)) :
    pairs.length ≤ (render_fields pairs).length := by
  induction pairs with
  | nil => simp [render_fields]
  | cons p rest ih =>
    obtain ⟨k, v⟩ := p
    cases rest with
    | nil => simp [render_fields, json_str_render]
    | cons q r2 =>
      simp only [render_fields, json_str_render] at ih ⊢
      simp at ih ⊢
      omega

/-- One-step unfolding of `json_get_string_field` on an object whose first
field starts right after the brace. -/
theorem json_get_string_field_step (big key out : Str) :
    json_get_string_field (123 :: (34 :: big)) key out =
      (match json_get_string_field_pairs ((123 :: (34 :: big)).length + 2) key
          (34 :: big) none with
        | none => (false, out)
        | some (found, restEnd) =>
          let restFinal :=
            match restEnd with
            | 125 :: r => json_skip_ws r
            | r => json_skip_ws r
          match found with
          | none => (false, out)
          | some v => if restFinal = [] then (true, v) else (false, out)) := rfl

/-- `json_get_string_field` on a rendered object returns the first
occurrence of the requested key, or fails leaving the output untouched. -/
theorem json_get_string_field_render (pairs : List (Str × Str)) (key out : Str)
    (hne : pairs ≠ []) (hpl : ∀ p ∈ pairs, plain_key p.1) :
    json_get_string_field (render_object pairs) key out =
      (match first_value key pairs with
        | some v => (true, v)
        | none => (false, out)) := by
  cases pairs with
  | nil => cases hne rfl
  | cons p ps =>
    obtain ⟨k, v⟩ := p
    have hx : render_fields ((k, v) :: ps) ++ [125] =
        34 :: ((k ++ [34, 58, 34] ++ escape_json v ++ [34] ++
          (match ps with
            | [] => []
            | _ :: _ => 44 :: render_fields ps)) ++ [125]) := by
      rw [render_fields_cons_head, List.cons_append]
    have hobj : render_object ((k, v) :: ps) =
        123 :: (34 :: ((k ++ [34, 58, 34] ++ escape_json v ++ [34] ++
          (match ps with
            | [] => []
            | _ :: _ => 44 :: render_fields ps)) ++ [125])) := by
      rw [render_object, List.cons_append, hx]
    have hlenx : (34 :: ((k ++ [34, 58, 34] ++ escape_json v ++ [34] ++
          (match ps with
            | [] => []
            | _ :: _ => 44 :: render_fields ps)) ++ [125])).length =
        (render_fields ((k, v) :: ps) ++ [125]).length := by
      rw [← hx]
    have hlen : ((k, v) :: ps).length + 1 ≤
        (123 :: (34 :: ((k ++ [34, 58, 34] ++ escape_json v ++ [34] ++
          (match ps with
            | [] => []
            | _ :: _ => 44 :: render_fields ps)) ++ [125]))).length + 2 := by
      have h1 := render_fields_length ((k, v) :: ps)
      simp only [List.length_cons, hlenx, List.length_append] at h1 ⊢
      omega
    have hloop := json_get_string_field_pairs_render ((k, v) :: ps) key none
      ((123 :: (34 :: ((k ++ [34, 58, 34] ++ escape_json v ++ [34] ++
        (match ps with
          | [] => []
          | _ :: _ => 44 :: render_fields ps)) ++ [125]))).length + 2)
      (by simp) hpl hlen
    rw [Option.none_or, hx] at hloop
    rw [hobj, json_get_string_field_step, hloop]
    cases hv : first_value key ((k, v) :: ps) <;> simp [json_skip_ws]

/-- The two config keys differ. -/
theorem key_target_ne_source : key_target_lang ≠ key_source_lang := by decide

/-- The `parse_config_update_payload` loop on a rendered field list always
reaches the closing brace; every occurrence of a config key overwrites the
recorded field, so the fold (last occurrence wins) describes the result. -/
theorem parse_config_update_pairs_render (pairs : List (Str × Str)) :
    ∀ (out : ConfigUpdatePayload) (fuel : Nat),
      pairs ≠ [] → (∀ p ∈ pairs, plain_key p.1) → pairs.length + 1 ≤ fuel →
      parse_config_update_pairs fuel (render_fields pairs ++ [125]) out =
        (some [], config_fold out pairs) := by
  induction pairs with
  | nil => intro _ _ hne; cases hne rfl
  | cons p rest ih =>
    obtain ⟨k, v⟩ := p
    intro out fuel _ hpl hf
    have hk : plain_key k := hpl (k, v) (List.mem_cons_self _ _)
    cases fuel with
    | zero => simp at hf
    | succ f =>
      have hf1 : 1 ≤ f := by simp at hf; omega
      cases rest with
      | nil =>
        have hs : render_fields [(k, v)] ++ [125] =
            34 :: (k ++ 34 :: (58 :: 34 :: (escape_json v ++ 34 :: [125]))) := by
          simp [render_fields, json_str_render]
        rw [hs]
        have hkp := parse_token_plain k (58 :: 34 :: (escape_json v ++ 34 :: [125])) hk
        have hvp := parse_token_escape v [125]
        by_cases ht : k = key_target_lang
        · simp only [parse_config_update_pairs, hkp]
          rw [json_skip_ws_not_ws 58 _ rfl]
          simp only [if_pos ht]
          rw [json_skip_ws_not_ws 34 _ rfl]
          simp only [hvp]
          rw [json_skip_ws_not_ws 125 _ rfl]
          simp [config_fold, ht]
        · by_cases hsrc : k = key_source_lang
          · simp only [parse_config_update_pairs, hkp]
            rw [json_skip_ws_not_ws 58 _ rfl]
            simp only [if_neg ht, if_pos hsrc]
            rw [json_skip_ws_not_ws 34 _ rfl]
            simp only [hvp]
            rw [json_skip_ws_not_ws 125 _ rfl]
            simp [config_fold, ht, hsrc, Ne.symm key_target_ne_source]
          · simp only [parse_config_update_pairs, hkp]
            rw [json_skip_ws_not_ws 58 _ rfl]
            simp only [if_neg ht, if_neg hsrc]
            rw [json_skip_ws_not_ws 34 _ rfl]
            cases f with
            | zero => omega
            | succ f2 =>
              have hsv := json_skip_value_string f2 (escape_json v ++ 34 :: [125])
              simp only [hsv, hvp, Option.map_some']
              rw [json_skip_ws_not_ws 125 _ rfl]
              simp [config_fold, ht, hsrc]
      | cons q rest2 =>
        have hs : render_fields ((k, v) :: q :: rest2) ++ [125] =
            34 :: (k ++ 34 :: (58 :: 34 :: (escape_json v ++ 34 ::
              (44 :: (render_fields (q :: rest2) ++ [125]))))) := by
          simp [render_fields_cons_head k v (q :: rest2)]
        rw [hs]
        have hkp := parse_token_plain k
          (58 :: 34 :: (escape_json v ++ 34 ::
            (44 :: (render_fields (q :: rest2) ++ [125])))) hk
        have hvp := parse_token_escape v (44 :: (render_fields (q :: rest2) ++ [125]))
        have hih : ∀ out1, parse_config_update_pairs f
            (render_fields (q :: rest2) ++ [125]) out1 =
            (some [], config_fold out1 (q :: rest2)) := by
          intro out1
          exact ih out1 f (by simp)
            (fun x hx => hpl x (List.mem_cons_of_mem _ hx)) (by simp at hf ⊢; omega)
        by_cases ht : k = key_target_lang
        · simp only [parse_config_update_pairs, hkp]
          rw [json_skip_ws_not_ws 58 _ rfl]
          simp only [if_pos ht]
          rw [json_skip_ws_not_ws 34 _ rfl]
          simp only [hvp]
          simp only [json_skip_ws_not_ws 44 _ rfl, json_skip_ws_render q rest2]
          simp [hih, config_fold, ht]
        · by_cases hsrc : k = key_source_lang
          · simp only [parse_config_update_pairs, hkp]
            rw [json_skip_ws_not_ws 58 _ rfl]
            simp only [if_neg ht, if_pos hsrc]
            rw [json_skip_ws_not_ws 34 _ rfl]
            simp only [hvp]
            simp only [json_skip_ws_not_ws 44 _ rfl, json_skip_ws_render q rest2]
            simp [hih, config_fold, ht, hsrc, Ne.symm key_target_ne_source]
          · simp only [parse_config_update_pairs, hkp]
            rw [json_skip_ws_not_ws 58 _ rfl]
            simp only [if_neg ht, if_neg hsrc]
            rw [json_skip_ws_not_ws 34 _ rfl]
            cases f with
            | zero => omega
            | succ f2 =>
              have hsv := json_skip_value_string f2
                (escape_json v ++ 34 :: (44 :: (render_fields (q :: rest2) ++ [125])))
              simp only [hsv, hvp, Option.map_some']
              simp only [json_skip_ws_not_ws 44 _ rfl, json_skip_ws_render q rest2]
              simp [hih, config_fold, ht, hsrc]

/-- One-step unfolding of `parse_config_update_payload` on an object whose
first field starts right after the brace. -/
theorem parse_config_update_payload_step (big : Str) (out : ConfigUpdatePayload) :
    parse_config_update_payload (123 :: (34 :: big)) out =
      (match parse_config_update_pairs ((123 :: (34 :: big)).length + 2)
          (34 :: big) out with
        | (none, out1) => (false, out1)
        | (some restEnd, out1) =>
          if json_skip_ws restEnd = [] then
            (out1.has_target_lang || out1.has_source_lang, out1)
          else (false, out1)) := rfl

/-- `parse_config_update_payload` on a rendered object records the last
occurrence of each config key and succeeds iff one of them was present. -/
theorem parse_config_update_payload_render (pairs : List (Str × Str))
    (out : ConfigUpdatePayload) (hne : pairs ≠ [])
    (hpl : ∀ p ∈ pairs, plain_key p.1) :
    parse_config_update_payload (render_object pairs) out =
      ((config_fold out pairs).has_target_lang || (config_fold out pairs).has_source_lang,
        config_fold out pairs) := by
  cases pairs with
  | nil => cases hne rfl
  | cons p ps =>
    obtain ⟨k, v⟩ := p
    have hx : render_fields ((k, v) :: ps) ++ [125] =
        34 :: ((k ++ [34, 58, 34] ++ escape_json v ++ [34] ++
          (match ps with
            | [] => []
            | _ :: _ => 44 :: render_fields ps)) ++ [125]) := by
      rw [render_fields_cons_head, List.cons_append]
    have hobj : render_object ((k, v) :: ps) =
        123 :: (34 :: ((k ++ [34, 58, 34] ++ escape_json v ++ [34] ++
          (match ps with
            | [] => []
            | _ :: _ => 44 :: render_fields ps)) ++ [125])) := by
      rw [render_object, List.cons_append, hx]
    have hlenx : (34 :: ((k ++ [34, 58, 34] ++ escape_json v ++ [34] ++
          (match ps with
            | [] => []
            | _ :: _ => 44 :: render_fields ps)) ++ [125])).length =
        (render_fields ((k, v) :: ps) ++ [125]).length := by
      rw [← hx]
    have hlen : ((k, v) :: ps).length + 1 ≤
        (123 :: (34 :: ((k ++ [34, 58, 34] ++ escape_json v ++ [34] ++
          (match ps with
            | [] => []
            | _ :: _ => 44 :: render_fields ps)) ++ [125]))).length + 2 := by
      have h1 := render_fields_length ((k, v) :: ps)
      simp only [List.length_cons, hlenx, List.length_append] at h1 ⊢
      omega
    have hloop := parse_config_update_pairs_render ((k, v) :: ps) out
      ((123 :: (34 :: ((k ++ [34, 58, 34] ++ escape_json v ++ [34] ++
        (match ps with
          | [] => []
          | _ :: _ => 44 :: render_fields ps)) ++ [125]))).length + 2)
      (by simp) hpl hlen
    rw [hx] at hloop
    rw [hobj, parse_config_update_payload_step, hloop]
    simp [json_skip_ws]

/-- `json_get_string_field` either fails returning the output parameter
untouched, or succeeds with the extracted value. -/
theorem json_get_string_field_shape (s key out : Str) :
    json_get_string_field s key out = (false, out) ∨
      ∃ v, json_get_string_field s key out = (true, v) := by
  simp only [json_get_string_field]
  repeat' split
  all_goals first
    | exact Or.inl rfl
    | exact Or.inr ⟨_, rfl⟩

/-- **C4 counterexample.** On `{"source_lang":"a","source_lang":"b"}` the
decoder records the LAST occurrence (`"b"`), not the first (`"a"`) as the
claim states. -/
theorem config_first_occurrence_counterexample :
    parse_config_update_payload
        ([123, 34] ++ key_source_lang ++ [34, 58, 34, 97, 34, 44, 34] ++
          key_source_lang ++ [34, 58, 34, 98, 34, 125]) {} =
      (true, { has_source_lang := true, source_lang := [98] }) ∧
    ([98] : Str) ≠ [97] := by
  exact ⟨by decide, by decide⟩

/-- **C4 (amended).** Over well-formed objects with string-valued fields
(rendered by the program's own encoder from an arbitrary non-empty list of
key/value pairs with plain keys): `json_get_string_field` returns the value
of the FIRST occurrence of the requested key and fails when the key is
absent; `parse_config_update_payload` records the LAST occurrence of
`source_lang` / `target_lang` (each later occurrence overwrites the earlier
one), flags each field independently, and fails exactly when neither field
is present. -/
theorem decode_occurrence_spec :
    (∀ (pairs : List (Str × Str)) (key out : Str),
      pairs ≠ [] → (∀ p ∈ pairs, plain_key p.1) →
      json_get_string_field (render_object pairs) key out =
        (match first_value key pairs with
          | some v => (true, v)
          | none => (false, out))) ∧
    (∀ (pairs : List (Str × Str)) (out : ConfigUpdatePayload),
      pairs ≠ [] → (∀ p ∈ pairs, plain_key p.1) →
      parse_config_update_payload (render_object pairs) out =
        ((config_fold out pairs).has_target_lang ||
            (config_fold out pairs).has_source_lang,
          config_fold out pairs)) :=
  ⟨fun pairs key out hne hpl => json_get_string_field_render pairs key out hne hpl,
   fun pairs out hne hpl => parse_config_update_payload_render pairs out hne hpl⟩

/-- Witness for `decode_occurrence_spec`: on the rendered object
`{"k":"a","k":"b","x":"c"}` the field lookup returns the first value `"a"`,
and on `{"source_lang":"a","source_lang":"b"}` the config decoder succeeds
with the last value `"b"`. -/
theorem decode_occurrence_spec_witness :
    json_get_string_field
        (render_object [([107], [97]), ([107], [98]), ([120], [99])]) [107] [] =
      (true, [97]) ∧
    parse_config_update_payload
        (render_object [(key_source_lang, [97]), (key_source_lang, [98])]) {} =
      (true, { has_source_lang := true, source_lang := [98] }) :=
  ⟨decode_occurrence_spec.1 [([107], [97]), ([107], [98]), ([120], [99])] [107] []
      (by decide) (by decide),
   decode_occurrence_spec.2 [(key_source_lang, [97]), (key_source_lang, [98])] {}
      (by decide) (by decide)⟩

/-- **C5 counterexample.** On `{"source_lang":"ko"}x` (trailing data after
the closing brace) `parse_config_update_payload` returns failure but leaves
its output parameter MODIFIED (the field and its presence flag were written
before the trailing data was seen): decoding is not all-or-nothing. -/
theorem config_partial_output_counterexample :
    parse_config_update_payload
        ([123, 34] ++ key_source_lang ++ [34, 58, 34, 107, 111, 34, 125, 120]) {} =
      (false, { has_source_lang := true, source_lang := [107, 111] }) ∧
    ({ has_source_lang := true, source_lang := [107, 111] } : ConfigUpdatePayload) ≠
      {} := by
  exact ⟨by decide, by decide⟩

/-- **C5 (amended).** `json_get_string_field` is all-or-nothing: whenever it
fails its output parameter is unchanged.  Representative malformed inputs of
every class named by the claim — a non-object, an unterminated string, an
unescaped control character, an invalid escape, an unpaired high surrogate,
a lone low surrogate, a missing key, a non-string value for a requested
key, and trailing data after the closing brace — make both entry points
fail; but an object truncated right after a separating comma is accepted by
both, and `parse_config_update_payload` may leave recorded fields in its
output on failure. -/
theorem decode_failure_spec :
    (∀ (s key out : Str), (json_get_string_field s key out).1 = false →
      (json_get_string_field s key out).2 = out) ∧
    ((json_get_string_field [34, 107, 34] key_source_lang []).1 = false ∧
      (parse_config_update_payload [34, 107, 34] {}).1 = false) ∧
    ((json_get_string_field ([123, 34] ++ key_source_lang ++ [34, 58, 34, 107, 111])
        key_source_lang []).1 = false ∧
      (parse_config_update_payload
        ([123, 34] ++ key_source_lang ++ [34, 58, 34, 107, 111]) {}).1 = false) ∧
    ((json_get_string_field
        ([123, 34] ++ key_source_lang ++ [34, 58, 34, 107, 1, 111, 34, 125])
        key_source_lang []).1 = false ∧
      (parse_config_update_payload
        ([123, 34] ++ key_source_lang ++ [34, 58, 34, 107, 1, 111, 34, 125]) {}).1 =
        false) ∧
    ((json_get_string_field
        ([123, 34] ++ key_source_lang ++ [34, 58, 34, 92, 113, 34, 125])
        key_source_lang []).1 = false ∧
      (parse_config_update_payload
        ([123, 34] ++ key_source_lang ++ [34, 58, 34, 92, 113, 34, 125]) {}).1 =
        false) ∧
    ((json_get_string_field
        ([123, 34] ++ key_source_lang ++
          [34, 58, 34, 92, 117, 100, 56, 48, 48, 120, 34, 125])
        key_source_lang []).1 = false ∧
      (parse_config_update_payload
        ([123, 34] ++ key_source_lang ++
          [34, 58, 34, 92, 117, 100, 56, 48, 48, 120, 34, 125]) {}).1 = false) ∧
    ((json_get_string_field
        ([123, 34] ++ key_source_lang ++
          [34, 58, 34, 92, 117, 100, 99, 48, 48, 34, 125])
        key_source_lang []).1 = false ∧
      (parse_config_update_payload
        ([123, 34] ++ key_source_lang ++
          [34, 58, 34, 92, 117, 100, 99, 48, 48, 34, 125]) {}).1 = false) ∧
    ((json_get_string_field [123, 34, 97, 34, 58, 34, 98, 34, 125]
        key_source_lang []).1 = false ∧
      (parse_config_update_payload [123, 34, 97, 34, 58, 34, 98, 34, 125] {}).1 =
        false) ∧
    ((json_get_string_field ([123, 34] ++ key_source_lang ++ [34, 58, 49, 125])
        key_source_lang []).1 = false ∧
      (parse_config_update_payload
        ([123, 34] ++ key_source_lang ++ [34, 58, 49, 125]) {}).1 = false) ∧
    ((json_get_string_field
        ([123, 34] ++ key_source_lang ++ [34, 58, 34, 107, 111, 34, 125, 120])
        key_source_lang []).1 = false ∧
      (parse_config_update_payload
        ([123, 34] ++ key_source_lang ++ [34, 58, 34, 107, 111, 34, 125, 120])
          {}).1 = false) ∧
    ((json_get_string_field ([123, 34] ++ key_source_lang ++ [34, 58, 34, 107, 111, 34, 44])
        key_source_lang []).1 = true ∧
      (parse_config_update_payload
        ([123, 34] ++ key_source_lang ++ [34, 58, 34, 107, 111, 34, 44]) {}).1 =
        true) := by
  refine ⟨?_, by decide, by decide, by decide, by decide, by decide, by decide,
    by decide, by decide, by decide, by decide⟩
  intro s key out h
  rcases json_get_string_field_shape s key out with he | ⟨v, he⟩
  · rw [he]
  · rw [he] at h
    simp at h

/-- Witness for `decode_failure_spec`: the failing non-object input leaves
the output parameter `[99]` unchanged. -/
theorem decode_failure_spec_witness :
    (json_get_string_field [34, 107, 34] key_source_lang [99]).2 = [99] :=
  decode_failure_spec.1 [34, 107, 34] key_source_lang [99] (by decide)
